import Mathlib

/-!
Shallow embedding of `src/itms_simulation.py`, a single-file batch pipeline
that parses traffic events, evaluates speeding and red-light rules, and
aggregates fines per vehicle and globally.

Modelling conventions:
* Python floats are modelled as exact rationals (`ℚ`).  Every speed the
  claims exercise is an exactly representable decimal, so the boundary
  behaviour (`speed > limit + 5`) is unchanged by this choice.
* Python `dict`s used as ordered maps (`vehicles`, `overall_counts`,
  `defaultdict`) become association lists that preserve first-insertion
  order, matching CPython dict iteration order.
* `float(s)` is modelled for finite decimal literals with optional sign,
  fraction and exponent (the inputs the program receives); `inf`, `nan`
  and digit underscores are out of scope of the claims.
* `str.strip` / `str.splitlines` are modelled directly on character lists.
* f-string rendering of a float (`68.0`) differs from `toString (68 : ℚ)`
  (`68`); only the opaque `desc` text is affected, never a rule or a fine.
-/

namespace ITMS

/-- Python whitespace characters relevant to `str.strip`. -/
def isPySpace (c : Char) : Bool :=
  c = ' ' || c = '\t' || c = '\n' || c = '\r' || c = '\x0b' || c = '\x0c'

/-- Model of Python `str.strip()`: drop leading and trailing whitespace. -/
def pyStrip (s : String) : String :=
  ⟨((s.data.dropWhile isPySpace).reverse.dropWhile isPySpace).reverse⟩

/-- Auxiliary for `pySplitlines`: split on `\r\n`, `\r` or `\n`,
keeping the final unterminated chunk, dropping a trailing empty chunk. -/
def splitlinesAux : List Char → List Char → List String
  | [], acc => if acc.isEmpty then [] else [⟨acc.reverse⟩]
  | '\r' :: '\n' :: rest, acc => String.mk acc.reverse :: splitlinesAux rest []
  | '\r' :: rest, acc => String.mk acc.reverse :: splitlinesAux rest []
  | '\n' :: rest, acc => String.mk acc.reverse :: splitlinesAux rest []
  | c :: rest, acc => splitlinesAux rest (c :: acc)

/-- Model of Python `str.splitlines()`. -/
def pySplitlines (s : String) : List String :=
  splitlinesAux s.data []

/-- Model of Python `str.split(sep)` for a one-character separator: split at
every occurrence, keeping empty chunks (`"".split(",") == [""]`). -/
def pySplit (sep : Char) : List Char → List (List Char)
  | [] => [[]]
  | c :: rest =>
    match pySplit sep rest with
    | [] => [[c]]
    | h :: t => if c = sep then [] :: h :: t else (c :: h) :: t

/-- ASCII upper-casing of one character, as `str.upper()` does on the
letters this program receives. -/
def pyCharUpper (c : Char) : Char :=
  if 'a' ≤ c ∧ c ≤ 'z' then Char.ofNat (c.toNat - 32) else c

/-- Model of Python `str.upper()`. -/
def pyUpper (s : String) : String :=
  ⟨s.data.map pyCharUpper⟩

/-- Digits-to-natural accumulator used by the float model. -/
def digitsToNat (ds : List Char) : ℕ :=
  ds.foldl (fun a c => a * 10 + (c.toNat - 48)) 0

/-- Model of Python `float(s)` restricted to finite decimal literals:
optional surrounding whitespace, optional sign, digits with an optional
single point (at least one digit overall), optional decimal exponent.
Returns the exact value as a rational. -/
def pyFloat (s : String) : Option ℚ :=
  let cs := (pyStrip s).data
  let signed : ℚ × List Char :=
    match cs with
    | '+' :: r => (1, r)
    | '-' :: r => (-1, r)
    | r => (1, r)
  let sign := signed.1
  let cs0 := signed.2
  let intPart := cs0.takeWhile Char.isDigit
  let cs1 := cs0.dropWhile Char.isDigit
  let fracSplit : List Char × List Char :=
    match cs1 with
    | '.' :: r => (r.takeWhile Char.isDigit, r.dropWhile Char.isDigit)
    | r => ([], r)
  let fracPart := fracSplit.1
  let cs2 := fracSplit.2
  if intPart.isEmpty && fracPart.isEmpty then none
  else
    let mant : ℚ :=
      (digitsToNat intPart : ℚ) + (digitsToNat fracPart : ℚ) / ((10 : ℚ) ^ fracPart.length)
    match cs2 with
    | [] => some (sign * mant)
    | 'e' :: r =>
      let esigned : ℤ × List Char :=
        match r with
        | '+' :: r2 => (1, r2)
        | '-' :: r2 => (-1, r2)
        | r2 => (1, r2)
      let eds := esigned.2.takeWhile Char.isDigit
      let rest := esigned.2.dropWhile Char.isDigit
      if eds.isEmpty || !rest.isEmpty then none
      else some (sign * mant * (10 : ℚ) ^ (esigned.1 * (digitsToNat eds : ℤ)))
    | 'E' :: r =>
      let esigned : ℤ × List Char :=
        match r with
        | '+' :: r2 => (1, r2)
        | '-' :: r2 => (-1, r2)
        | r2 => (1, r2)
      let eds := esigned.2.takeWhile Char.isDigit
      let rest := esigned.2.dropWhile Char.isDigit
      if eds.isEmpty || !rest.isEmpty then none
      else some (sign * mant * (10 : ℚ) ^ (esigned.1 * (digitsToNat eds : ℤ)))
    | _ => none

/-- Policy constant: default speed limit (km/h), `DEFAULT_SPEED_LIMIT = 50`. -/
def DEFAULT_SPEED_LIMIT : ℤ := 50

/-- Policy constant: tolerance margin (km/h), `SPEED_TOLERANCE = 5`. -/
def SPEED_TOLERANCE : ℤ := 5

/-- Policy constant: fixed red-light fine (INR), `RED_LIGHT_FINE = 2000`. -/
def RED_LIGHT_FINE : ℤ := 2000

/-- Policy constant: speeding fine rate (INR per km/h), `SPEED_FINE_PER_KMPH = 100`. -/
def SPEED_FINE_PER_KMPH : ℤ := 100

/-- The location-specific speed-limit table `LOCATION_SPEED_LIMITS`. -/
def LOCATION_SPEED_LIMITS : List (String × ℤ) :=
  [("MG_Road_01", 50), ("Outer_Ring_2", 80), ("School_Zone_A", 30), ("Highway_7", 100)]

/-- `get_speed_limit(location)`: table value when present, else the default. -/
def get_speed_limit (location : String) : ℤ :=
  ((LOCATION_SPEED_LIMITS.find? (fun p => p.1 == location)).map Prod.snd).getD
    DEFAULT_SPEED_LIMIT

/-- An event record as produced by `parse_event`. -/
structure Event where
  timestamp : String
  vehicle_id : String
  location : String
  speed : ℚ
  signal_state : String
  action : String
deriving DecidableEq

/-- The comma fields of a line after the outer strip and the per-part strip,
exactly `[p.strip() for p in line.strip().split(",")]`. -/
def partsOf (line : String) : List String :=
  (pySplit ',' (pyStrip line).data).map (fun cs => pyStrip ⟨cs⟩)

/-- `parse_event(line)`: `None` when fewer than six fields or a non-numeric
speed field; otherwise the record with signal state and action upper-cased. -/
def parse_event (line : String) : Option Event :=
  let parts := partsOf line
  if parts.length < 6 then none
  else
    match pyFloat (parts.getD 3 "") with
    | none => none
    | some speed =>
      some { timestamp := parts.getD 0 "", vehicle_id := parts.getD 1 "",
             location := parts.getD 2 "", speed := speed,
             signal_state := pyUpper (parts.getD 4 ""),
             action := pyUpper (parts.getD 5 "") }

/-- A violation tuple `(type, over, fine, desc)` appended by `evaluate_event`. -/
structure Violation where
  vtype : String
  over : Option ℤ
  fine : ℤ
  desc : String
deriving DecidableEq

/-- `evaluate_event(evt)`: the speeding check first, then the red-light check. -/
def evaluate_event (evt : Event) : List Violation :=
  let speed_limit := get_speed_limit evt.location
  let speeding : List Violation :=
    if evt.speed > (speed_limit : ℚ) + (SPEED_TOLERANCE : ℚ) then
      let over_rounded := Int.ceil (evt.speed - (speed_limit : ℚ))
      [{ vtype := "SPEEDING", over := some over_rounded,
         fine := over_rounded * SPEED_FINE_PER_KMPH,
         desc := "speed " ++ toString evt.speed ++ " > limit " ++ toString speed_limit }]
    else []
  let red : List Violation :=
    if evt.signal_state == "RED" && evt.action == "PASS" then
      [{ vtype := "RED_LIGHT", over := none, fine := RED_LIGHT_FINE,
         desc := "Passed on RED" }]
    else []
  speeding ++ red

/-- A violation as stored per vehicle in `main`, with the event's timestamp
and location attached. -/
structure VioRec where
  vtype : String
  over : Option ℤ
  fine : ℤ
  desc : String
  timestamp : String
  location : String
deriving DecidableEq

/-- The per-vehicle accumulator `{"violations": [...], "total_fine": n}`. -/
structure VehicleRec where
  violations : List VioRec
  total_fine : ℤ
deriving DecidableEq

/-- The mutable state of `main`'s aggregation loop: the `vehicles` map, the
`overall_counts` map (both insertion-ordered) and the running `total_fines`. -/
structure AggState where
  vehicles : List (String × VehicleRec)
  overall_counts : List (String × ℕ)
  total_fines : ℤ
deriving DecidableEq

/-- The state before any line is processed. -/
def initState : AggState := { vehicles := [], overall_counts := [], total_fines := 0 }

/-- Append one violation to a vehicle's record, creating the record on first
use (the `defaultdict` access `vehicles[evt["vehicle_id"]]`). -/
def addViolation (vs : List (String × VehicleRec)) (vid : String) (v : VioRec) :
    List (String × VehicleRec) :=
  match vs with
  | [] => [(vid, { violations := [v], total_fine := v.fine })]
  | (k, r) :: rest =>
    if k = vid then
      (k, { violations := r.violations ++ [v], total_fine := r.total_fine + v.fine }) :: rest
    else
      (k, r) :: addViolation rest vid v

/-- Increment a per-type counter, creating it at zero on first use
(the `defaultdict(int)` access `overall_counts[vtype] += 1`). -/
def bumpCount (cs : List (String × ℕ)) (k : String) : List (String × ℕ) :=
  match cs with
  | [] => [(k, 1)]
  | (k0, n) :: rest =>
    if k0 = k then (k0, n + 1) :: rest else (k0, n) :: bumpCount rest k

/-- One iteration of the inner `for vtype, over, fine, desc in violations` loop. -/
def applyViolation (evt : Event) (st : AggState) (v : Violation) : AggState :=
  let vr : VioRec := { vtype := v.vtype, over := v.over, fine := v.fine, desc := v.desc,
                       timestamp := evt.timestamp, location := evt.location }
  { vehicles := addViolation st.vehicles evt.vehicle_id vr,
    overall_counts := bumpCount st.overall_counts v.vtype,
    total_fines := st.total_fines + v.fine }

/-- One iteration of the outer `for line in input_lines` loop: a line whose
parse fails is skipped silently and leaves the state unchanged. -/
def processLine (st : AggState) (line : String) : AggState :=
  match parse_event line with
  | none => st
  | some evt => (evaluate_event evt).foldl (applyViolation evt) st

/-- The whole aggregation fold of `main` over the input lines. -/
def processLines (lines : List String) (st : AggState) : AggState :=
  lines.foldl processLine st

/-- The four fixed sample lines printed when no input is detected. -/
def sampleInput : List String :=
  ["2025-11-05T09:12:33,KA01AB1234,MG_Road_01,68,RED,PASS",
   "2025-11-05T09:13:10,KA01CD5678,MG_Road_01,55,GREEN,PASS",
   "2025-11-05T09:15:00,KA02EF9999,Outer_Ring_2,95,GREEN,PASS",
   "2025-11-05T09:16:20,KA01AB1234,School_Zone_A,45,GREEN,PASS"]

/-- The full output of the empty-input branch: the usage hint then the four
sample lines, one string per `print` call. -/
def usageOutput : List String :=
  "No input detected. Sample input (pipe these lines to the program):\n" :: sampleInput

/-- One line of the per-vehicle violation listing. -/
def formatVioLine (v : VioRec) : String :=
  if v.vtype == "SPEEDING" then
    "  - " ++ v.timestamp ++ " | " ++ v.location ++ " | SPEEDING by " ++
      (match v.over with | some m => toString m | none => "None") ++
      " km/h -> Fine ₹" ++ toString v.fine ++ " (" ++ v.desc ++ ")"
  else
    "  - " ++ v.timestamp ++ " | " ++ v.location ++ " | " ++ v.vtype ++
      " -> Fine ₹" ++ toString v.fine ++ " (" ++ v.desc ++ ")"

/-- The block the Violations Report prints for one vehicle. -/
def vehicleReport (p : String × VehicleRec) : List String :=
  if p.2.violations.isEmpty then []
  else
    ("Vehicle: " ++ p.1 ++ "  | Total Fine: ₹" ++ toString p.2.total_fine ++
      "  | Violations: " ++ toString p.2.violations.length)
      :: p.2.violations.map formatVioLine ++ [""]

/-- The report printed on the non-empty branch: Violations Report section,
then the Dashboard, one string per `print` call. -/
def reportOutput (st : AggState) : List String :=
  "=== Violations Report ===" :: (st.vehicles.map vehicleReport).flatten ++
  "=== Dashboard ===" ::
  ("Total vehicles with violations: " ++ toString st.vehicles.length) ::
  ("Total fines collected: ₹" ++ toString st.total_fines) ::
  st.overall_counts.map (fun kc => "  " ++ kc.1 ++ ": " ++ toString kc.2) ++
  "\nPer-vehicle summary:" ::
  st.vehicles.map (fun p =>
    "  " ++ p.1 ++ ": Violations=" ++ toString p.2.violations.length ++
    ", TotalFine=₹" ++ toString p.2.total_fine)

/-- `main()`: read stdin, strip, split into lines; on empty input print the
usage sample and return with the aggregate untouched; otherwise run the fold
and print the report.  Returns the printed lines and the final state. -/
def main (input : String) : List String × AggState :=
  let input_lines := pySplitlines (pyStrip input)
  if input_lines.isEmpty then (usageOutput, initState)
  else
    let st := processLines input_lines initState
    (reportOutput st, st)

/-- A boundary event: location `MG_Road_01` (limit 50), speed exactly 55. -/
def evtBoundary : Event :=
  { timestamp := "t", vehicle_id := "v", location := "MG_Road_01", speed := 55,
    signal_state := "GREEN", action := "PASS" }

/-- The spec's end-to-end sample line, with lower-case signal state and action
to exercise intake normalization. -/
def lineLower : String := "2025-11-05T09:12:33,KA01AB1234,MG_Road_01,68,red,pass"

/-- The spec's end-to-end sample line as written. -/
def lineSample : String := "2025-11-05T09:12:33,KA01AB1234,MG_Road_01,68,RED,PASS"

/-- The event parsed from the spec's end-to-end sample line. -/
def evtSample : Event :=
  { timestamp := "2025-11-05T09:12:33", vehicle_id := "KA01AB1234",
    location := "MG_Road_01", speed := 68, signal_state := "RED", action := "PASS" }

/-- The SPEEDING violation the sample event produces. -/
def vioSpeeding68 : Violation :=
  { vtype := "SPEEDING", over := some 18, fine := 1800, desc := "speed 68 > limit 50" }

/-- The RED_LIGHT violation the sample event produces. -/
def vioRed : Violation :=
  { vtype := "RED_LIGHT", over := none, fine := 2000, desc := "Passed on RED" }

/-- The stored violation records of the sample event, with timestamp and
location attached. -/
def vrSpeeding : VioRec :=
  { vtype := "SPEEDING", over := some 18, fine := 1800, desc := "speed 68 > limit 50",
    timestamp := "2025-11-05T09:12:33", location := "MG_Road_01" }

/-- The stored RED_LIGHT record of the sample event. -/
def vrRed : VioRec :=
  { vtype := "RED_LIGHT", over := none, fine := 2000, desc := "Passed on RED",
    timestamp := "2025-11-05T09:12:33", location := "MG_Road_01" }

/-- The vehicle record accumulated from the sample line. -/
def recSample : VehicleRec := { violations := [vrSpeeding, vrRed], total_fine := 3800 }

/-- The aggregate state after processing exactly the sample line. -/
def stSample : AggState :=
  { vehicles := [("KA01AB1234", recSample)],
    overall_counts := [("SPEEDING", 1), ("RED_LIGHT", 1)], total_fines := 3800 }

/-- The aggregation invariant: the grand total equals the sum of the
per-vehicle running totals, vehicle keys are distinct (each violation lives
in exactly one record), and each running total is the sum of its record's
fines. -/
def InvFine (st : AggState) : Prop :=
  st.total_fines = (st.vehicles.map (fun p => p.2.total_fine)).sum ∧
  (st.vehicles.map Prod.fst).Nodup ∧
  ∀ p ∈ st.vehicles, p.2.total_fine = (p.2.violations.map VioRec.fine).sum

/-! ### Helper lemmas -/

/-- `evaluate_event` with its `let`s expanded, for case analysis. -/
lemma evaluate_event_def (evt : Event) :
    evaluate_event evt =
      (if evt.speed > (get_speed_limit evt.location : ℚ) + (SPEED_TOLERANCE : ℚ) then
        [{ vtype := "SPEEDING", over := some (Int.ceil (evt.speed - (get_speed_limit evt.location : ℚ))),
           fine := Int.ceil (evt.speed - (get_speed_limit evt.location : ℚ)) * SPEED_FINE_PER_KMPH,
           desc := "speed " ++ toString evt.speed ++ " > limit " ++ toString (get_speed_limit evt.location) }]
      else []) ++
      (if evt.signal_state == "RED" && evt.action == "PASS" then
        [{ vtype := "RED_LIGHT", over := none, fine := RED_LIGHT_FINE, desc := "Passed on RED" }]
      else []) := rfl

/-- The float model evaluates `"68"` to the exact rational 68. -/
lemma pyFloat_68 : pyFloat "68" = some 68 := by
  show some (1 * (((68 : ℕ) : ℚ) + ((0 : ℕ) : ℚ) / (10 : ℚ) ^ (0 : ℕ))) = some 68
  norm_num

/-- The lower-case sample line parses to the sample event (fields normalized). -/
lemma parse_lineLower : parse_event lineLower = some evtSample := by
  have hparts : partsOf lineLower =
      ["2025-11-05T09:12:33", "KA01AB1234", "MG_Road_01", "68", "red", "pass"] := by decide
  simp only [parse_event, hparts]
  norm_num [pyFloat_68, evtSample]
  decide

/-- The sample line as written parses to the sample event. -/
lemma parse_lineSample : parse_event lineSample = some evtSample := by
  have hparts : partsOf lineSample =
      ["2025-11-05T09:12:33", "KA01AB1234", "MG_Road_01", "68", "RED", "PASS"] := by decide
  simp only [parse_event, hparts]
  norm_num [pyFloat_68, evtSample]
  decide

/-- The sample event is over the tolerance at its location. -/
lemma evtSample_over :
    evtSample.speed > (get_speed_limit evtSample.location : ℚ) + (SPEED_TOLERANCE : ℚ) := by
  norm_num [evtSample, get_speed_limit, LOCATION_SPEED_LIMITS, SPEED_TOLERANCE]

/-- The sample event yields the SPEEDING violation then the RED_LIGHT one. -/
lemma evaluate_evtSample : evaluate_event evtSample = [vioSpeeding68, vioRed] := by
  rw [evaluate_event_def, if_pos evtSample_over]
  have hceil : Int.ceil (evtSample.speed - (get_speed_limit evtSample.location : ℚ)) = 18 := by
    norm_num [evtSample, get_speed_limit, LOCATION_SPEED_LIMITS]
  rw [hceil,
    if_pos (by decide : (evtSample.signal_state == "RED" && evtSample.action == "PASS") = true)]
  decide
/-- Adding a violation raises the per-vehicle fine sum by exactly its fine. -/
lemma addViolation_fines_sum (vs : List (String × VehicleRec)) (vid : String) (v : VioRec) :
    ((addViolation vs vid v).map (fun p => p.2.total_fine)).sum =
      (vs.map (fun p => p.2.total_fine)).sum + v.fine := by
  induction vs with
  | nil => simp [addViolation]
  | cons p rest ih =>
    rcases p with ⟨k, r⟩
    by_cases hk : k = vid <;> simp [addViolation, hk, ih] <;> ring

/-- Adding a violation either keeps the vehicle keys or appends the new one. -/
lemma addViolation_keys (vs : List (String × VehicleRec)) (vid : String) (v : VioRec) :
    (addViolation vs vid v).map Prod.fst =
      if vid ∈ vs.map Prod.fst then vs.map Prod.fst else vs.map Prod.fst ++ [vid] := by
  induction vs with
  | nil => simp [addViolation]
  | cons p rest ih =>
    rcases p with ⟨k, r⟩
    by_cases hk : k = vid
    · simp [addViolation, hk]
    · by_cases hm : vid ∈ rest.map Prod.fst <;>
        simp [addViolation, hk, ih, hm, Ne.symm hk]

/-- Adding a violation preserves distinctness of the vehicle keys. -/
lemma addViolation_nodup (vs : List (String × VehicleRec)) (vid : String) (v : VioRec)
    (h : (vs.map Prod.fst).Nodup) : ((addViolation vs vid v).map Prod.fst).Nodup := by
  rw [addViolation_keys]
  split_ifs with hm
  · exact h
  · simp [List.nodup_append, h, hm]

/-- Adding a violation preserves "running total = sum of recorded fines". -/
lemma addViolation_perVehicle (vs : List (String × VehicleRec)) (vid : String) (v : VioRec)
    (h : ∀ p ∈ vs, p.2.total_fine = (p.2.violations.map VioRec.fine).sum) :
    ∀ p ∈ addViolation vs vid v, p.2.total_fine = (p.2.violations.map VioRec.fine).sum := by
  induction vs with
  | nil =>
    intro p hp
    simp only [addViolation, List.mem_singleton] at hp
    subst hp
    simp
  | cons q rest ih =>
    rcases q with ⟨k, r⟩
    intro p hp
    by_cases hk : k = vid
    · simp only [addViolation, if_pos hk, List.mem_cons] at hp
      rcases hp with hp | hp
      · subst hp
        have hr := h (k, r) (List.mem_cons_self _ _)
        simp only at hr
        simp [hr]
      · exact h p (List.mem_cons_of_mem _ hp)
    · simp only [addViolation, if_neg hk, List.mem_cons] at hp
      rcases hp with hp | hp
      · subst hp
        exact h _ (List.mem_cons_self _ _)
      · exact ih (fun q hq => h q (List.mem_cons_of_mem _ hq)) p hp

/-- One violation application preserves the aggregation invariant. -/
lemma applyViolation_inv (evt : Event) (st : AggState) (v : Violation)
    (h : InvFine st) : InvFine (applyViolation evt st v) := by
  obtain ⟨h1, h2, h3⟩ := h
  refine ⟨?_, addViolation_nodup _ _ _ h2, addViolation_perVehicle _ _ _ h3⟩
  simp only [applyViolation]
  rw [addViolation_fines_sum, h1]

/-- Folding a violation list preserves the aggregation invariant. -/
lemma foldl_applyViolation_inv (evt : Event) (l : List Violation) (st : AggState)
    (h : InvFine st) : InvFine (l.foldl (applyViolation evt) st) := by
  induction l generalizing st with
  | nil => exact h
  | cons v rest ih => exact ih _ (applyViolation_inv _ _ _ h)

/-- Processing one line preserves the aggregation invariant. -/
lemma processLine_inv (st : AggState) (line : String) (h : InvFine st) :
    InvFine (processLine st line) := by
  cases hp : parse_event line with
  | none => simpa [processLine, hp] using h
  | some evt =>
    simp only [processLine, hp]
    exact foldl_applyViolation_inv _ _ _ h

/-- Processing any line list preserves the aggregation invariant. -/
lemma processLines_inv (lines : List String) (st : AggState) (h : InvFine st) :
    InvFine (processLines lines st) := by
  induction lines generalizing st with
  | nil => exact h
  | cons l rest ih => exact ih _ (processLine_inv _ _ h)

/-- The concrete state reached from the sample line alone. -/
lemma processLines_lineSample : processLines [lineSample] initState = stSample := by
  simp only [processLines, List.foldl, processLine, parse_lineSample, evaluate_evtSample]
  decide

/-! ### Claims about the rule evaluator -/

/-- C1: the speeding rule fires iff `speed > limit + 5`; at
`speed = limit + 5` exactly, `evaluate_event` produces no SPEEDING violation. -/
theorem itms_C1 (evt : Event) :
    ((evaluate_event evt).any (fun v => v.vtype == "SPEEDING") = true ↔
      evt.speed > (get_speed_limit evt.location : ℚ) + 5) ∧
    (evt.speed = (get_speed_limit evt.location : ℚ) + 5 →
      (evaluate_event evt).any (fun v => v.vtype == "SPEEDING") = false) := by
  have h5 : ((SPEED_TOLERANCE : ℤ) : ℚ) = 5 := by norm_num [SPEED_TOLERANCE]
  constructor
  · rw [evaluate_event_def, List.any_append]
    split_ifs with h1 <;> rw [h5] at h1 <;> simp [h1]
  · intro heq
    rw [evaluate_event_def, List.any_append]
    have hnot : ¬ (evt.speed > (get_speed_limit evt.location : ℚ) + (SPEED_TOLERANCE : ℚ)) := by
      rw [h5, heq]; exact lt_irrefl _
    rw [if_neg hnot]
    split_ifs <;> simp

/-- C1 witness: at location `MG_Road_01` (limit 50) and speed exactly 55,
no SPEEDING violation is produced. -/
theorem itms_C1_witness :
    (evaluate_event evtBoundary).any (fun v => v.vtype == "SPEEDING") = false :=
  (itms_C1 evtBoundary).2
    (by norm_num [evtBoundary, get_speed_limit, LOCATION_SPEED_LIMITS, DEFAULT_SPEED_LIMIT])

/-- C2: whenever the speeding rule fires, the produced SPEEDING violation has
magnitude `⌈speed − limit⌉` (from the bare limit, not `limit + tolerance`)
and fine `⌈speed − limit⌉ * 100`. -/
theorem itms_C2 (evt : Event)
    (h : evt.speed > (get_speed_limit evt.location : ℚ) + (SPEED_TOLERANCE : ℚ)) :
    (∃ v ∈ evaluate_event evt, v.vtype = "SPEEDING") ∧
    ∀ v ∈ evaluate_event evt, v.vtype = "SPEEDING" →
      v.over = some (Int.ceil (evt.speed - (get_speed_limit evt.location : ℚ))) ∧
      v.fine = Int.ceil (evt.speed - (get_speed_limit evt.location : ℚ)) * 100 := by
  rw [evaluate_event_def, if_pos h]
  constructor
  · exact ⟨_, List.mem_append_left _ (List.mem_singleton_self _), rfl⟩
  · intro v hv ht
    rcases List.mem_append.1 hv with h1 | h1
    · rw [List.mem_singleton.1 h1]
      exact ⟨rfl, rfl⟩
    · split_ifs at h1
      · rw [List.mem_singleton.1 h1] at ht
        exact absurd ht (by decide)
      · exact absurd h1 (List.not_mem_nil v)

/-- C2 witness: the sample event (limit 50, speed 68) is over the tolerance
and its SPEEDING violation has magnitude `⌈68 − 50⌉ = 18` and fine 1800. -/
theorem itms_C2_witness :
    (∃ v ∈ evaluate_event evtSample, v.vtype = "SPEEDING") ∧
    (∀ v ∈ evaluate_event evtSample, v.vtype = "SPEEDING" →
      v.over = some (Int.ceil (evtSample.speed - (get_speed_limit evtSample.location : ℚ))) ∧
      v.fine = Int.ceil (evtSample.speed - (get_speed_limit evtSample.location : ℚ)) * 100) ∧
    Int.ceil (evtSample.speed - (get_speed_limit evtSample.location : ℚ)) = 18 := by
  have h := itms_C2 evtSample evtSample_over
  exact ⟨h.1, h.2, by norm_num [evtSample, get_speed_limit, LOCATION_SPEED_LIMITS]⟩

/-- C3: for any parsed event, the red-light rule fires iff the upper-cased
signal state is `RED` and the upper-cased action is `PASS`; the violation it
produces has fine exactly 2000 and no magnitude. -/
theorem itms_C3 (line : String) (evt : Event) (h : parse_event line = some evt) :
    evt.signal_state = pyUpper ((partsOf line).getD 4 "") ∧
    evt.action = pyUpper ((partsOf line).getD 5 "") ∧
    ((evaluate_event evt).any (fun v => v.vtype == "RED_LIGHT") = true ↔
      (evt.signal_state = "RED" ∧ evt.action = "PASS")) ∧
    (∀ v ∈ evaluate_event evt, v.vtype = "RED_LIGHT" → v.fine = 2000 ∧ v.over = none) := by
  have hfields : evt.signal_state = pyUpper ((partsOf line).getD 4 "") ∧
      evt.action = pyUpper ((partsOf line).getD 5 "") := by
    simp only [parse_event] at h
    split_ifs at h
    rcases hp : pyFloat ((partsOf line).getD 3 "") with _ | speed <;> rw [hp] at h
    · exact absurd h (by simp)
    · obtain rfl := Option.some_injective _ h
      exact ⟨rfl, rfl⟩
  refine ⟨hfields.1, hfields.2, ?_, ?_⟩
  · rw [evaluate_event_def, List.any_append]
    split_ifs with h1 h2 <;> simp_all
  · intro v hv ht
    rw [evaluate_event_def] at hv
    rcases List.mem_append.1 hv with h1 | h1
    · split_ifs at h1
      · rw [List.mem_singleton.1 h1] at ht
        exact absurd ht (by simp)
      · exact absurd h1 (List.not_mem_nil v)
    · split_ifs at h1
      · rw [List.mem_singleton.1 h1]
        exact ⟨rfl, rfl⟩
      · exact absurd h1 (List.not_mem_nil v)

/-- C3 witness: the lower-case sample line parses to the sample event, the
fields are upper-cased at intake, the red-light rule fires on it, and its
RED_LIGHT violation carries fine 2000 and no magnitude. -/
theorem itms_C3_witness :
    parse_event lineLower = some evtSample ∧
    (evtSample.signal_state = pyUpper ((partsOf lineLower).getD 4 "") ∧
      evtSample.action = pyUpper ((partsOf lineLower).getD 5 "") ∧
      ((evaluate_event evtSample).any (fun v => v.vtype == "RED_LIGHT") = true ↔
        (evtSample.signal_state = "RED" ∧ evtSample.action = "PASS")) ∧
      (∀ v ∈ evaluate_event evtSample, v.vtype = "RED_LIGHT" →
        v.fine = 2000 ∧ v.over = none)) :=
  ⟨parse_lineLower, itms_C3 lineLower evtSample parse_lineLower⟩

/-- C6: the violation list is ordered with the speeding result (if any)
before the red-light result (if any). -/
theorem itms_C6 (evt : Event) :
    (evaluate_event evt).map Violation.vtype = [] ∨
    (evaluate_event evt).map Violation.vtype = ["SPEEDING"] ∨
    (evaluate_event evt).map Violation.vtype = ["RED_LIGHT"] ∨
    (evaluate_event evt).map Violation.vtype = ["SPEEDING", "RED_LIGHT"] := by
  rw [evaluate_event_def]
  split_ifs <;> simp

/-- C10: every SPEEDING violation produced by `evaluate_event` has an integer
magnitude of at least 6 and a fine that is a positive multiple of 100, at
least 600. -/
theorem itms_C10 (evt : Event) (v : Violation) (hv : v ∈ evaluate_event evt)
    (ht : v.vtype = "SPEEDING") :
    ∃ m : ℤ, v.over = some m ∧ 6 ≤ m ∧ v.fine = m * 100 ∧ 600 ≤ v.fine ∧
      v.fine % 100 = 0 ∧ 0 < v.fine := by
  rw [evaluate_event_def] at hv
  rcases List.mem_append.1 hv with h1 | h1
  · split_ifs at h1 with hc
    · obtain rfl := List.mem_singleton.1 h1
      have h5 : ((SPEED_TOLERANCE : ℤ) : ℚ) = 5 := by norm_num [SPEED_TOLERANCE]
      rw [h5] at hc
      have h6 : 6 ≤ Int.ceil (evt.speed - (get_speed_limit evt.location : ℚ)) := by
        have hlt : ((5 : ℤ) : ℚ) < evt.speed - (get_speed_limit evt.location : ℚ) := by
          push_cast
          linarith
        have := Int.lt_ceil.2 hlt
        omega
      refine ⟨Int.ceil (evt.speed - (get_speed_limit evt.location : ℚ)), rfl, h6, rfl, ?_, ?_, ?_⟩
      · show 600 ≤ Int.ceil (evt.speed - (get_speed_limit evt.location : ℚ)) * 100
        omega
      · show Int.ceil (evt.speed - (get_speed_limit evt.location : ℚ)) * 100 % 100 = 0
        omega
      · show 0 < Int.ceil (evt.speed - (get_speed_limit evt.location : ℚ)) * 100
        omega
    · exact absurd h1 (List.not_mem_nil v)
  · split_ifs at h1
    · rw [List.mem_singleton.1 h1] at ht
      exact absurd ht (by decide)
    · exact absurd h1 (List.not_mem_nil v)

/-- C10 witness: the sample event's SPEEDING violation has magnitude 18 ≥ 6
and fine 1800, a positive multiple of 100 at least 600. -/
theorem itms_C10_witness :
    ∃ m : ℤ, vioSpeeding68.over = some m ∧ 6 ≤ m ∧ vioSpeeding68.fine = m * 100 ∧
      600 ≤ vioSpeeding68.fine ∧ vioSpeeding68.fine % 100 = 0 ∧ 0 < vioSpeeding68.fine :=
  itms_C10 evtSample vioSpeeding68
    (by rw [evaluate_evtSample]; exact List.mem_cons_self _ _) rfl

/-! ### Claims about parsing, policy lookup, aggregation and main -/

/-- C4: a line parses to an event exactly when it has at least six comma
fields and its fourth field parses as a float; a line that produces no
record leaves the aggregate state unchanged and processing continues with
the remaining lines. -/
theorem itms_C4 :
    (∀ line : String, (parse_event line).isSome = true ↔
      (6 ≤ (partsOf line).length ∧ (pyFloat ((partsOf line).getD 3 "")).isSome = true)) ∧
    (∀ (st : AggState) (line : String), parse_event line = none → processLine st line = st) ∧
    (∀ (st : AggState) (line : String) (rest : List String), parse_event line = none →
      processLines (line :: rest) st = processLines rest st) := by
  refine ⟨?_, ?_, ?_⟩
  · intro line
    simp only [parse_event]
    split_ifs with hlen
    · simp only [Option.isSome_none, Bool.false_eq_true, false_iff, not_and]
      intro h6
      omega
    · rcases hp : pyFloat ((partsOf line).getD 3 "") with _ | q <;> simp [hp]
      omega
  · intro st line h
    simp [processLine, h]
  · intro st line rest h
    simp [processLines, processLine, h]

/-- C4 witness: a six-field line with a non-numeric speed yields no record,
and processing it changes nothing. -/
theorem itms_C4_witness :
    processLine initState "a,b,c,notanumber,e,f" = initState :=
  itms_C4.2.1 initState "a,b,c,notanumber,e,f" (by decide)

/-- C5: `get_speed_limit` is total and pure: it returns the table's value
when the location is a key, and the default 50 otherwise. -/
theorem itms_C5 (loc : String) :
    (∀ v : ℤ, (loc, v) ∈ LOCATION_SPEED_LIMITS → get_speed_limit loc = v) ∧
    ((∀ v : ℤ, (loc, v) ∉ LOCATION_SPEED_LIMITS) →
      get_speed_limit loc = DEFAULT_SPEED_LIMIT) := by
  constructor
  · intro v hv
    simp only [LOCATION_SPEED_LIMITS, List.mem_cons, List.not_mem_nil, or_false] at hv
    rcases hv with h | h | h | h <;>
      · rw [Prod.ext_iff] at h
        obtain ⟨rfl, rfl⟩ := h
        decide
  · intro hnot
    have h1 : ("MG_Road_01" == loc) = false := by
      refine beq_eq_false_iff_ne.2 fun he => hnot 50 ?_
      subst he
      decide
    have h2 : ("Outer_Ring_2" == loc) = false := by
      refine beq_eq_false_iff_ne.2 fun he => hnot 80 ?_
      subst he
      decide
    have h3 : ("School_Zone_A" == loc) = false := by
      refine beq_eq_false_iff_ne.2 fun he => hnot 30 ?_
      subst he
      decide
    have h4 : ("Highway_7" == loc) = false := by
      refine beq_eq_false_iff_ne.2 fun he => hnot 100 ?_
      subst he
      decide
    simp [get_speed_limit, LOCATION_SPEED_LIMITS, List.find?, h1, h2, h3, h4]

/-- C5 witness: a key of the table maps to its value; an unknown location
maps to the default. -/
theorem itms_C5_witness :
    get_speed_limit "School_Zone_A" = 30 ∧
    get_speed_limit "Lonely_Street" = DEFAULT_SPEED_LIMIT :=
  ⟨(itms_C5 "School_Zone_A").1 30 (by decide),
   (itms_C5 "Lonely_Street").2 (by intro v; simp [LOCATION_SPEED_LIMITS])⟩

/-- C7: after the whole fold, the grand total equals the sum of the
per-vehicle running totals; vehicle keys are distinct, so each appended
violation belongs to exactly one vehicle record, whose running total is the
sum of its recorded fines. -/
theorem itms_C7 (lines : List String) :
    (processLines lines initState).total_fines =
      ((processLines lines initState).vehicles.map (fun p => p.2.total_fine)).sum ∧
    ((processLines lines initState).vehicles.map Prod.fst).Nodup ∧
    ∀ p ∈ (processLines lines initState).vehicles,
      p.2.total_fine = (p.2.violations.map VioRec.fine).sum :=
  processLines_inv lines initState
    ⟨rfl, List.nodup_nil, fun p hp => absurd hp (List.not_mem_nil p)⟩

/-- C7 witness: on the sample line the invariant holds, and the concrete
vehicle record of KA01AB1234 has total fine equal to its fine sum. -/
theorem itms_C7_witness :
    (processLines [lineSample] initState).total_fines =
      ((processLines [lineSample] initState).vehicles.map (fun p => p.2.total_fine)).sum ∧
    ((processLines [lineSample] initState).vehicles.map Prod.fst).Nodup ∧
    ("KA01AB1234", recSample).2.total_fine =
      ((("KA01AB1234", recSample).2.violations.map VioRec.fine).sum) :=
  ⟨(itms_C7 [lineSample]).1, (itms_C7 [lineSample]).2.1,
   (itms_C7 [lineSample]).2.2 ("KA01AB1234", recSample)
     (by rw [processLines_lineSample]; exact List.mem_cons_self _ _)⟩

/-- C8: on empty or all-whitespace input, `main` prints the usage hint and
the four fixed sample lines, leaves the aggregate state untouched, and emits
neither the Violations Report nor the Dashboard. -/
theorem itms_C8 (input : String) (h : pyStrip input = "") :
    main input = (usageOutput, initState) ∧
    usageOutput =
      "No input detected. Sample input (pipe these lines to the program):\n" :: sampleInput ∧
    sampleInput.length = 4 ∧
    "=== Violations Report ===" ∉ usageOutput ∧
    "=== Dashboard ===" ∉ usageOutput := by
  have hempty : pySplitlines (pyStrip input) = [] := by
    rw [h]
    decide
  refine ⟨?_, rfl, rfl, by decide, by decide⟩
  simp [main, hempty]

/-- C8 witness: a whitespace-only input takes the usage branch. -/
theorem itms_C8_witness :
    main " \n\t " = (usageOutput, initState) ∧
    usageOutput =
      "No input detected. Sample input (pipe these lines to the program):\n" :: sampleInput ∧
    sampleInput.length = 4 ∧
    "=== Violations Report ===" ∉ usageOutput ∧
    "=== Dashboard ===" ∉ usageOutput :=
  itms_C8 " \n\t " (by decide)

/-- C9: the spec's end-to-end scenario: the sample line yields for vehicle
KA01AB1234 exactly the SPEEDING violation (magnitude 18, fine 1800) followed
by the RED_LIGHT violation (fine 2000), total fine 3800. -/
theorem itms_C9 :
    (processLines [lineSample] initState).vehicles.map Prod.fst = ["KA01AB1234"] ∧
    ((processLines [lineSample] initState).vehicles.getD 0
        ("", { violations := [], total_fine := 0 })).2.violations.map
        (fun v => (v.vtype, v.over, v.fine)) =
      [("SPEEDING", some 18, 1800), ("RED_LIGHT", none, 2000)] ∧
    ((processLines [lineSample] initState).vehicles.getD 0
        ("", { violations := [], total_fine := 0 })).2.total_fine = 3800 := by
  rw [processLines_lineSample]
  decide

end ITMS
